import Mathlib

/-!
Verification of the configuration-resolution and dispatch core of the
`ng-openapi` command-line tool (`packages/ng-openapi/src/lib/cli.ts`).

The TypeScript source is shallowly embedded:

* JavaScript runtime values that flow through the untyped parts of the CLI
  (loaded configuration modules, the request object handed to the generation
  engine) are modelled by `JSValue`, with JavaScript truthiness (`jsTruthy`)
  and property access (`jsGet`, which faithfully fails on `null`/`undefined`).
* `new URL(s)` (WHATWG URL parsing) is modelled by `parseURL`, covering the
  scheme/protocol behaviour the CLI depends on: an absolute URL needs a
  leading alphabetic scheme followed by a colon; the protocol is the
  lower-cased scheme plus a colon; special network schemes require a
  non-empty authority part.
* Node's `path.extname` is modelled by `extname` (posix semantics, including
  the leading-dot and `".."` corner cases of Node's algorithm).
* `fs.existsSync` is a parameter `fsExists : String → Bool`; the module
  system (`require`, its cache, the on-disk modules) is explicit state.
* The generation engine `generateFromConfig` (external, `./core`) is a
  parameter `engine : JSValue → Except String Unit`.

Errors are `Except` values carrying the thrown message, matching the
`error.message` strings of the source.
-/

mutual

/-- A JavaScript runtime value, as far as the CLI inspects one: the loaded
configuration module, its exports, and the request object. Numbers are
modelled as integers; the CLI only ever tests truthiness, reads properties
and passes values through, so no float behaviour is observable here.
Object properties are a `JSFields` association sequence. -/
inductive JSValue where
  | undefined : JSValue
  | null : JSValue
  | bool : Bool → JSValue
  | num : Int → JSValue
  | str : String → JSValue
  | obj : JSFields → JSValue

/-- The ordered property list of a JavaScript object. -/
inductive JSFields where
  | nil : JSFields
  | cons : String → JSValue → JSFields → JSFields

end

/-- The first value bound to key `k` in a property list, if any. -/
def JSFields.find? (k : String) : JSFields → Option JSValue
  | .nil => none
  | .cons key v rest => if key = k then some v else rest.find? k

/-- The keys of a property list, in order. -/
def JSFields.keys : JSFields → List String
  | .nil => []
  | .cons key _ rest => key :: rest.keys

/-- JavaScript truthiness of a value (`if (v)`), as used by the export-shape
normalization `a || b || c` and the `!config.input` checks in the source. -/
def jsTruthy : JSValue → Bool
  | .undefined => false
  | .null => false
  | .bool b => b
  | .num n => n ≠ 0
  | .str s => ¬ s.isEmpty
  | .obj _ => true

/-- Total field lookup: the property named `k` of an object, `undefined` for a
missing key or a primitive receiver. Used to state properties; the embedding
itself accesses properties through `jsGet`, which also models the `TypeError`
thrown on `null`/`undefined` receivers. -/
def lookupField (v : JSValue) (k : String) : JSValue :=
  match v with
  | .obj fields =>
    match fields.find? k with
    | some w => w
    | none => .undefined
  | _ => .undefined

/-- JavaScript property access `v[k]`: reading a property of `null` or
`undefined` throws a `TypeError`; any other receiver yields `lookupField`.
The thrown message is modelled without the quoted key. -/
def jsGet (v : JSValue) (k : String) : Except String JSValue :=
  match v with
  | .undefined => .error ("TypeError: Cannot read properties of undefined (reading " ++ k ++ ")")
  | .null => .error ("TypeError: Cannot read properties of null (reading " ++ k ++ ")")
  | _ => .ok (lookupField v k)

/-- JavaScript string coercion `String(v)`, used where the CLI passes a value
of the loaded (untyped) configuration to a string-consuming function. -/
def jsToString : JSValue → String
  | .undefined => "undefined"
  | .null => "null"
  | .bool b => if b then "true" else "false"
  | .num n => toString n
  | .str s => s
  | .obj _ => "[object Object]"

/-- Character-wise lower-casing, the model of JavaScript `toLowerCase()`
and of the lower-casing a URL parser applies to the scheme. -/
def strToLower (s : String) : String :=
  String.mk (s.toList.map Char.toLower)

/-- Characters allowed after the first character of a URL scheme
(ASCII alphanumeric, `+`, `-`, `.`). -/
def isSchemeChar (c : Char) : Bool :=
  c.isAlpha || c.isDigit || c = '+' || c = '-' || c = '.'

/-- Split a string into a scheme and the remainder after the colon, when it
starts with an ASCII letter followed by scheme characters and a `:`.
Otherwise `new URL` throws, modelled as `none`. -/
def schemeSplit (s : String) : Option (String × String) :=
  match s.toList with
  | [] => none
  | c :: _ =>
    if ¬ c.isAlpha then none
    else
      let chars := s.toList
      let scheme := chars.takeWhile isSchemeChar
      match chars.drop scheme.length with
      | ':' :: after => some (String.mk scheme, String.mk after)
      | _ => none

/-- The result of a successful `new URL(s)`: the `protocol` (lower-cased
scheme followed by `:`) and the remainder of the input, which the CLI never
inspects. -/
structure URLParts where
  protocol : String
  rest : String
deriving Repr, DecidableEq

/-- Special network schemes of the WHATWG URL standard that require a
non-empty host: an input such as `http://` or `http:` fails to parse. -/
def specialNetworkSchemes : List String := ["http", "https", "ws", "wss", "ftp"]

/-- Model of WHATWG `new URL(s)` for an absolute URL: `none` when the
constructor throws. A valid scheme followed by `:` is required; for the
special network schemes the part after the slashes must be non-empty
(no-host special URLs throw); every other scheme parses with an opaque
remainder. -/
def parseURL (s : String) : Option URLParts :=
  match schemeSplit s with
  | none => none
  | some (scheme, after) =>
    let schemeL := strToLower scheme
    if specialNetworkSchemes.contains schemeL then
      let afterHostSlashes := after.toList.dropWhile (fun c => c = '/' || c = '\\')
      if afterHostSlashes.isEmpty then none
      else some ⟨schemeL ++ ":", String.mk afterHostSlashes⟩
    else
      some ⟨schemeL ++ ":", after⟩

/-- `isUrl` from the source: `new URL(input)` inside `try`, `true` on
success and `false` when the constructor throws. -/
def isUrl (input : String) : Bool :=
  (parseURL input).isSome

/-- The basename characters of a posix path: trailing slashes are ignored
and everything up to the last remaining `/` is dropped, exactly as in the
scan of Node's `path.extname`. -/
def basenameChars (p : String) : List Char :=
  ((p.toList.reverse.dropWhile (fun c => c = '/')).takeWhile (fun c => c ≠ '/')).reverse

/-- Extension of a basename, following Node's algorithm: empty when there is
no dot, when the only dot is the leading character, or when the basename is
exactly `..`; otherwise the suffix from the last dot on. -/
def extOfBase (b : List Char) : List Char :=
  if b.contains '.' then
    if b = ['.', '.'] then []
    else
      let afterLastDotRev := b.reverse.takeWhile (fun c => c ≠ '.')
      let dotIdx := b.length - afterLastDotRev.length - 1
      if dotIdx = 0 then [] else b.drop dotIdx
  else []

/-- Node's `path.extname` (posix). -/
def extname (p : String) : String :=
  String.mk (extOfBase (basenameChars p))

/-- The errors `validateInput` can throw, with their exact messages
reproduced by `InputError.message`. -/
inductive InputError where
  | unsupportedProtocol : String → InputError
  | notFound : String → InputError
  | unsupportedFormat : String → InputError
deriving Repr, DecidableEq

/-- The `error.message` of each `validateInput` failure, as built by the
template literals of the source. -/
def InputError.message : InputError → String
  | .unsupportedProtocol proto =>
    "Unsupported URL protocol: " ++ proto ++ ". Only HTTP and HTTPS are supported."
  | .notFound p => "Input file not found: " ++ p
  | .unsupportedFormat ext =>
    "Failed to parse " ++ (if ext.isEmpty then "specification" else ext) ++
    ". Supported formats are .json, .yaml, and .yml."

/-- The extensions accepted for a local specification file. -/
def supportedExtensions : List String := [".json", ".yaml", ".yml"]

/-- `validateInput` from the source. A string that parses as a URL must have
protocol `http:` or `https:` (no filesystem check); otherwise the path must
exist on the filesystem (`fsExists`) and its lower-cased extension must be
supported. -/
def validateInput (fsExists : String → Bool) (inputPath : String) : Except InputError Unit :=
  match parseURL inputPath with
  | some url =>
    if ["http:", "https:"].contains url.protocol then .ok ()
    else .error (.unsupportedProtocol url.protocol)
  | none =>
    if ¬ fsExists inputPath then .error (.notFound inputPath)
    else
      let extension := strToLower (extname inputPath)
      if ¬ supportedExtensions.contains extension then .error (.unsupportedFormat extension)
      else .ok ()

/-- Whether a value is the JavaScript `undefined`. -/
def isUndefined : JSValue → Bool
  | .undefined => true
  | _ => false

/-- Whether a value is `null` or `undefined` (property access on these
throws). -/
def isNullish : JSValue → Bool
  | .undefined => true
  | .null => true
  | _ => false

/-- Whether `needle` occurs as a contiguous sublist of `hay`. -/
def listContainsSub (hay needle : List Char) : Bool :=
  match hay with
  | [] => needle.isEmpty
  | _ :: t => needle.isPrefixOf hay || listContainsSub t needle

/-- Substring test, used to state which pieces of information an error
message carries. -/
def strContains (hay needle : String) : Bool :=
  listContainsSub hay.toList needle.toList

/-- Model of Node's `path.resolve(p)` against a current working directory:
an absolute path is kept, a relative one is joined to `cwd`. (Dot-segment
normalization is irrelevant to every property below and is not modelled.) -/
def pathResolve (cwd p : String) : String :=
  match p.toList with
  | '/' :: _ => p
  | _ => cwd ++ "/" ++ p

/-- Export-shape normalization, line 32 of the source:
`configModule.default || configModule.config || configModule`. Property
reads go through `jsGet`, so a `null`/`undefined` module makes the
expression itself throw; `||` short-circuits on the first truthy operand. -/
def normalizeModule (m : JSValue) : Except String JSValue :=
  match jsGet m "default" with
  | .error e => .error e
  | .ok d =>
    if jsTruthy d then .ok d
    else
      match jsGet m "config" with
      | .error e => .error e
      | .ok c => if jsTruthy c then .ok c else .ok m

/-- The required-field validation of `loadConfigFile`, lines 34–36:
`if (!config.input || !config.output) throw ...`, then `return config`. -/
def checkConfig (config : JSValue) : Except String JSValue :=
  match jsGet config "input" with
  | .error e => .error e
  | .ok i =>
    if ¬ jsTruthy i then
      .error "Configuration must include \"input\" and \"output\" properties"
    else
      match jsGet config "output" with
      | .error e => .error e
      | .ok o =>
        if ¬ jsTruthy o then
          .error "Configuration must include \"input\" and \"output\" properties"
        else .ok config

/-- The module cache of the process (`require.cache`), keyed by resolved
path. -/
def ModuleCache : Type := String → Option JSValue

/-- The modules on disk: evaluating the module at a path either yields its
`module.exports` value or throws with a message. -/
def ModuleDisk : Type := String → Except String JSValue

/-- Node's `require(p)` for an already-resolved absolute path `p`
(`require.resolve` is the identity on these): a cached module is returned
as is; otherwise the module on disk is evaluated and, on success, cached. -/
def requireModule (disk : ModuleDisk) (cache : ModuleCache) (p : String) :
    Except String JSValue × ModuleCache :=
  match cache p with
  | some v => (.ok v, cache)
  | none =>
    match disk p with
    | .ok v => (.ok v, fun q => if q = p then some v else cache q)
    | .error e => (.error e, cache)

/-- Deletion of a cache entry: `delete require.cache[require.resolve(path)]`
(line 20 of the source). -/
def deleteCacheEntry (cache : ModuleCache) (p : String) : ModuleCache :=
  fun q => if q = p then none else cache q

/-- The body of the `try` block of `loadConfigFile` (lines 22–38): require
the module (the `ts-node/register` hook for `.ts` files only installs a
compiler and does not affect the resulting value), normalize its export
shape, validate the required fields. -/
def loadConfigBody (disk : ModuleDisk) (cache : ModuleCache) (resolvedPath : String) :
    Except String JSValue × ModuleCache :=
  let (required, cache2) := requireModule disk cache resolvedPath
  let result : Except String JSValue :=
    match required with
    | .error e => .error e
    | .ok configModule =>
      match normalizeModule configModule with
      | .error e => .error e
      | .ok config => checkConfig config
  (result, cache2)

/-- `loadConfigFile` from the source. The returned cache is the
`require.cache` after the call. A missing file throws unwrapped
("Configuration file not found: ..."); everything thrown inside the `try`
block — module evaluation errors and the required-field error alike — is
re-thrown wrapped as "Failed to load configuration file: " plus the cause
message. -/
def loadConfigFile (fsExists : String → Bool) (disk : ModuleDisk) (cache : ModuleCache)
    (cwd configPath : String) : Except String JSValue × ModuleCache :=
  let resolvedPath := pathResolve cwd configPath
  if ¬ fsExists resolvedPath then
    (.error ("Configuration file not found: " ++ resolvedPath), cache)
  else
    let cache1 := deleteCacheEntry cache resolvedPath
    match loadConfigBody disk cache1 resolvedPath with
    | (.ok config, cache2) => (.ok config, cache2)
    | (.error e, cache2) => (.error ("Failed to load configuration file: " ++ e), cache2)

/-- The command-line options object handed to `generateFromOptions` by
commander: string-valued flags are absent (`undefined`) or present, and
`--types-only` is a boolean flag. -/
structure CliOptions where
  config : Option String
  input : Option String
  output : Option String
  typesOnly : Bool
  dateType : Option String

/-- JavaScript truthiness of an optional string flag
(absent and `""` are falsy). -/
def optTruthy : Option String → Bool
  | some s => ¬ s.isEmpty
  | none => false

/-- A string flag as a JavaScript value (`undefined` when absent). -/
def jsOfStrOpt : Option String → JSValue
  | some s => .str s
  | none => .undefined

/-- The JavaScript default pattern `flag || fallback` on a string flag. -/
def jsStrOr (o : Option String) (fallback : String) : JSValue :=
  match o with
  | some s => if s.isEmpty then .str fallback else .str s
  | none => .str fallback

/-- The `GeneratorConfig` object literal built in the flags-only branch,
lines 92–101 of the source. -/
def mergeFlags (opts : CliOptions) : JSValue :=
  .obj (.cons "input" (jsOfStrOpt opts.input)
       (.cons "output" (jsStrOr opts.output "./src/generated")
       (.cons "options" (.obj
         (.cons "dateType" (jsStrOr opts.dateType "Date")
         (.cons "enumStyle" (.str "enum")
         (.cons "generateEnumBasedOnDescription" (.bool true)
         (.cons "generateServices" (.bool (! opts.typesOnly))
          .nil)))))
        .nil)))

/-- The terminal outcome of one `generateFromOptions` invocation:
`success` prints the completion message and lets the process exit 0;
`usage` is the neither-config-nor-input branch — the error message is
printed and `program.help()` (line 106) outputs the usage guidance and
then itself terminates the process; `failed` is the `catch` block
("Generation failed: ..." plus `process.exit(1)`). -/
inductive CliOutcome where
  | success : CliOutcome
  | usage : CliOutcome
  | failed : String → CliOutcome
deriving Repr, DecidableEq

/-- The exit code of the process for each outcome. The usage branch exits
with code 0: commander's `program.help()`, called with no argument,
terminates the process with `process.exitCode || 0` — nothing has set
`process.exitCode`, so the exit code is 0 and the `process.exit(1)` on
line 107 is unreachable dead code. -/
def CliOutcome.exitCode : CliOutcome → Nat
  | .success => 0
  | .usage => 0
  | .failed _ => 1

/-- One run of `generateFromOptions`: the configurations handed to the
generation engine (`generateFromConfig`), in order, the terminal outcome,
and the module cache left behind. -/
structure CliRun where
  engineCalls : List JSValue
  outcome : CliOutcome
  cache : ModuleCache

/-- The process environment `generateFromOptions` runs against. -/
structure SysEnv where
  cwd : String
  fsExists : String → Bool
  disk : ModuleDisk
  cache : ModuleCache

/-- The config-file branch of `generateFromOptions` (lines 80–87): load the
configuration, validate its `input` (stringified, as the untyped value is
passed where a string is expected), dispatch to the engine. -/
def runConfigBranch (env : SysEnv) (engine : JSValue → Except String Unit)
    (cfgPath : String) : CliRun :=
  match loadConfigFile env.fsExists env.disk env.cache env.cwd cfgPath with
  | (.error e, cache2) => ⟨[], .failed e, cache2⟩
  | (.ok config, cache2) =>
    match validateInput env.fsExists (jsToString (lookupField config "input")) with
    | .error err => ⟨[], .failed err.message, cache2⟩
    | .ok () =>
      match engine config with
      | .ok () => ⟨[config], .success, cache2⟩
      | .error e => ⟨[config], .failed e, cache2⟩

/-- The flags-only branch of `generateFromOptions` (lines 88–103): validate
the input flag, build the request with defaults, dispatch to the engine. -/
def runFlagsBranch (env : SysEnv) (engine : JSValue → Except String Unit)
    (opts : CliOptions) : CliRun :=
  match validateInput env.fsExists (opts.input.getD "") with
  | .error err => ⟨[], .failed err.message, env.cache⟩
  | .ok () =>
    match engine (mergeFlags opts) with
    | .ok () => ⟨[mergeFlags opts], .success, env.cache⟩
    | .error e => ⟨[mergeFlags opts], .failed e, env.cache⟩

/-- `generateFromOptions` from the source: branch on the truthiness of
`options.config`, then of `options.input` (so an empty-string flag falls
through, exactly as `if (options.config) ... else if (options.input) ...`
does); with neither, print the usage error, the help text, and exit 1.
Every error thrown in the taken branch is caught by the surrounding
`try`/`catch` and reported as a failure with exit code 1. -/
def generateFromOptions (env : SysEnv) (engine : JSValue → Except String Unit)
    (opts : CliOptions) : CliRun :=
  if optTruthy opts.config then
    runConfigBranch env engine (opts.config.getD "")
  else if optTruthy opts.input then
    runFlagsBranch env engine opts
  else
    ⟨[], .usage, env.cache⟩

/-- Whether an object carries a value for the key `k`
(a present field that is not `undefined`). -/
def hasValue (v : JSValue) (k : String) : Bool :=
  ¬ isUndefined (lookupField v k)

/-- The spec's notion of a fully populated generation request: `input`,
`output`, and all four option fields carry a value. -/
def fullyPopulated (c : JSValue) : Bool :=
  hasValue c "input" && hasValue c "output" &&
  hasValue (lookupField c "options") "dateType" &&
  hasValue (lookupField c "options") "enumStyle" &&
  hasValue (lookupField c "options") "generateEnumBasedOnDescription" &&
  hasValue (lookupField c "options") "generateServices"

/-- A configuration module exporting only `input` and `output` — a legal
on-disk configuration, since only these two fields are validated. -/
def demoCfgModule : JSValue :=
  .obj (.cons "input" (.str "/tmp/a.json") (.cons "output" (.str "out") .nil))

/-- An environment whose filesystem holds the configuration file
`/cfg.js` (evaluating to `demoCfgModule`) and the local specification
`/tmp/a.json`, with an empty module cache. -/
def demoEnv : SysEnv :=
  ⟨"/w", fun p => p = "/cfg.js" || p = "/tmp/a.json",
   fun p => if p = "/cfg.js" then .ok demoCfgModule else .error "no module",
   fun _ => none⟩

/-- A generation engine stub that always succeeds. -/
def demoEngine : JSValue → Except String Unit := fun _ => .ok ()

/-- Flags selecting the configuration file `/cfg.js`. -/
def demoCfgOpts : CliOptions := ⟨some "/cfg.js", none, none, false, none⟩

/-- An environment whose filesystem holds only the local specification
`./spec.json`. -/
def demoFlagsEnv : SysEnv :=
  ⟨"/w", fun p => p = "./spec.json", fun _ => .error "no module", fun _ => none⟩

/-- The flags `{config: undefined, input: "./spec.json", typesOnly: true}`. -/
def demoFlagsOpts : CliOptions := ⟨none, some "./spec.json", none, true, none⟩

theorem jsGet_ok_eq {v : JSValue} {k : String} {w : JSValue}
    (h : jsGet v k = .ok w) : w = lookupField v k := by
  cases v <;> simp [jsGet] at h <;> exact h.symm

theorem jsGet_of_not_nullish {v : JSValue} (k : String) (h : isNullish v = false) :
    jsGet v k = .ok (lookupField v k) := by
  cases v <;> simp [isNullish] at h ⊢ <;> rfl

theorem jsTruthy_not_nullish {v : JSValue} (h : jsTruthy v = true) :
    isNullish v = false := by
  cases v <;> simp [jsTruthy] at h <;> rfl

theorem jsGet_ok_not_nullish {v : JSValue} {k : String} {w : JSValue}
    (h : jsGet v k = .ok w) : isNullish v = false := by
  cases v <;> simp [jsGet] at h <;> rfl

theorem normalizeModule_ok_not_nullish {m c : JSValue}
    (h : normalizeModule m = .ok c) : isNullish c = false := by
  unfold normalizeModule at h
  split at h
  · exact absurd h (by simp)
  · rename_i d hd
    split at h
    · rename_i htd
      injection h with h1
      subst h1
      exact jsTruthy_not_nullish htd
    · split at h
      · exact absurd h (by simp)
      · rename_i c' hc
        split at h
        · rename_i htc
          injection h with h1
          subst h1
          exact jsTruthy_not_nullish htc
        · injection h with h1
          subst h1
          exact jsGet_ok_not_nullish hd

theorem checkConfig_ok {cfg c : JSValue} (h : checkConfig cfg = .ok c) :
    c = cfg ∧ jsTruthy (lookupField cfg "input") = true ∧
    jsTruthy (lookupField cfg "output") = true := by
  unfold checkConfig at h
  split at h
  · exact absurd h (by simp)
  · rename_i i hi
    split at h
    · exact absurd h (by simp)
    · rename_i hti
      split at h
      · exact absurd h (by simp)
      · rename_i o ho
        split at h
        · exact absurd h (by simp)
        · rename_i hto
          injection h with h1
          subst h1
          refine ⟨rfl, ?_, ?_⟩
          · have h2 : jsTruthy i = true := not_not.mp hti
            rw [jsGet_ok_eq hi] at h2
            exact h2
          · have h2 : jsTruthy o = true := not_not.mp hto
            rw [jsGet_ok_eq ho] at h2
            exact h2

theorem checkConfig_missing {cfg : JSValue} (hn : isNullish cfg = false)
    (h : jsTruthy (lookupField cfg "input") = false ∨
         jsTruthy (lookupField cfg "output") = false) :
    checkConfig cfg = .error "Configuration must include \"input\" and \"output\" properties" := by
  unfold checkConfig
  rw [jsGet_of_not_nullish "input" hn, jsGet_of_not_nullish "output" hn]
  rcases h with h | h
  · simp [h]
  · by_cases hti : jsTruthy (lookupField cfg "input") = true
    · simp [hti, h]
    · simp [eq_false_of_ne_true hti]

/-- A fresh (cache-free) evaluation of the module at `resolved` followed by
export-shape normalization and required-field validation — what the `try`
block of `loadConfigFile` computes when the cache holds no entry for the
path. -/
def evalAndValidate (disk : ModuleDisk) (resolved : String) : Except String JSValue :=
  match disk resolved with
  | .error e => (.error e : Except String JSValue)
  | .ok m =>
    match normalizeModule m with
    | .error e => .error e
    | .ok config => checkConfig config

/-- The result of one fresh (cache-free) configuration load: what
`loadConfigFile` computes, as a function of the filesystem, the on-disk
modules and the resolved path only. -/
def loadResult (fsExists : String → Bool) (disk : ModuleDisk) (resolved : String) :
    Except String JSValue :=
  if ¬ fsExists resolved then .error ("Configuration file not found: " ++ resolved)
  else
    match evalAndValidate disk resolved with
    | .ok config => .ok config
    | .error e => .error ("Failed to load configuration file: " ++ e)

theorem loadConfigFile_fst_eq (fsExists : String → Bool) (disk : ModuleDisk)
    (cache : ModuleCache) (cwd configPath : String) :
    (loadConfigFile fsExists disk cache cwd configPath).1 =
      loadResult fsExists disk (pathResolve cwd configPath) := by
  unfold loadConfigFile loadResult evalAndValidate loadConfigBody requireModule deleteCacheEntry
  by_cases hex : fsExists (pathResolve cwd configPath) = true
  · simp only [hex, if_pos rfl]
    cases hdisk : disk (pathResolve cwd configPath) with
    | ok m =>
      cases hnorm : normalizeModule m with
      | ok config =>
        cases hchk : checkConfig config <;> simp [hnorm, hchk]
      | error e => simp [hnorm]
    | error e => simp
  · simp [hex]

theorem isPrefixOf_self (l : List Char) : l.isPrefixOf l = true := by
  induction l with
  | nil => rfl
  | cons a t ih => simp [List.isPrefixOf, ih]

theorem listContainsSub_self (y : List Char) : listContainsSub y y = true := by
  cases y with
  | nil => rfl
  | cons a t => simp [listContainsSub, isPrefixOf_self]

theorem listContainsSub_append (x y : List Char) : listContainsSub (x ++ y) y = true := by
  induction x with
  | nil => simpa using listContainsSub_self y
  | cons a t ih => simp [listContainsSub, ih]

theorem strContains_append (a b : String) : strContains (a ++ b) b = true := by
  unfold strContains
  have h : (a ++ b).toList = a.toList ++ b.toList := rfl
  rw [h]
  exact listContainsSub_append a.toList b.toList

theorem loadResult_eval_error {fsExists : String → Bool} {disk : ModuleDisk}
    {resolved e : String} (hex : fsExists resolved = true)
    (hdisk : disk resolved = .error e) :
    loadResult fsExists disk resolved = .error ("Failed to load configuration file: " ++ e) := by
  unfold loadResult evalAndValidate
  simp [hex, hdisk]

theorem evalAndValidate_ok_truthy {disk : ModuleDisk} {resolved : String} {c : JSValue}
    (h : evalAndValidate disk resolved = .ok c) :
    jsTruthy (lookupField c "input") = true ∧ jsTruthy (lookupField c "output") = true := by
  unfold evalAndValidate at h
  split at h
  · exact absurd h (by simp)
  · split at h
    · exact absurd h (by simp)
    · obtain ⟨hceq, hin, hout⟩ := checkConfig_ok h
      subst hceq
      exact ⟨hin, hout⟩

theorem loadResult_ok_truthy {fsExists : String → Bool} {disk : ModuleDisk}
    {resolved : String} {c : JSValue} (h : loadResult fsExists disk resolved = .ok c) :
    jsTruthy (lookupField c "input") = true ∧ jsTruthy (lookupField c "output") = true := by
  unfold loadResult at h
  split at h
  · exact absurd h (by simp)
  · split at h
    · rename_i config heq
      injection h with h1
      subst h1
      exact evalAndValidate_ok_truthy heq
    · exact absurd h (by simp)

/-- C1: for every input string that parses as an absolute URL whose protocol
is neither `http:` nor `https:`, `validateInput` fails with the
unsupported-protocol error — the result does not depend on the filesystem,
so the local-file existence and extension checks are never reached. -/
theorem validateInput_rejects_unsupported_protocol (fsExists : String → Bool)
    (input : String) (url : URLParts) (h : parseURL input = some url)
    (hp : url.protocol ≠ "http:") (hps : url.protocol ≠ "https:") :
    validateInput fsExists input = .error (.unsupportedProtocol url.protocol) := by
  unfold validateInput
  rw [h]
  have hm : url.protocol ∉ ["http:", "https:"] := by simp [hp, hps]
  simp [hm]

theorem validateInput_rejects_unsupported_protocol_witness :
    validateInput (fun _ => true) "ftp://x" = .error (.unsupportedProtocol "ftp:") :=
  validateInput_rejects_unsupported_protocol (fun _ => true) "ftp://x" ⟨"ftp:", "x"⟩
    (by decide) (by decide) (by decide)

/-- C7: for every input string that does not parse as a URL, validation
succeeds exactly when the path exists and its lower-cased extension is one
of `.json`, `.yaml`, `.yml`; nonexistence yields the not-found error, and an
unsupported extension (the extension string may be empty) yields the
unsupported-format error. -/
theorem validateInput_local_file_policy (fsExists : String → Bool) (input : String)
    (h : parseURL input = none) :
    (validateInput fsExists input = .ok () ↔
       fsExists input = true ∧ strToLower (extname input) ∈ supportedExtensions) ∧
    (fsExists input = false → validateInput fsExists input = .error (.notFound input)) ∧
    (fsExists input = true → strToLower (extname input) ∉ supportedExtensions →
      validateInput fsExists input = .error (.unsupportedFormat (strToLower (extname input)))) := by
  unfold validateInput
  rw [h]
  by_cases hfs : fsExists input = true
  · by_cases hext : strToLower (extname input) ∈ supportedExtensions
    · refine ⟨?_, ?_, ?_⟩
      · simp [hfs, hext]
      · intro hf
        exact absurd hfs (by simp [hf])
      · intro _ hextf
        exact absurd hext hextf
    · refine ⟨?_, ?_, ?_⟩
      · simp [hfs, hext]
      · intro hf
        exact absurd hfs (by simp [hf])
      · intro _ _
        simp [hfs, hext]
  · have hfs2 : fsExists input = false := eq_false_of_ne_true hfs
    refine ⟨?_, ?_, ?_⟩
    · simp [hfs2]
    · intro _
      simp [hfs2]
    · intro hf _
      exact absurd hf hfs

theorem validateInput_local_file_policy_witness :
    validateInput (fun _ => true) "./spec.json" = .ok () ∧
    validateInput (fun _ => false) "./spec.json" = .error (.notFound "./spec.json") :=
  ⟨(validateInput_local_file_policy (fun _ => true) "./spec.json" (by decide)).1.mpr
     ⟨rfl, by decide⟩,
   (validateInput_local_file_policy (fun _ => false) "./spec.json" (by decide)).2.1 rfl⟩

/-- C2: invoked with `{config: undefined, input: undefined}`, the dispatcher
prints the usage error and guidance and never invokes the generation
engine — but the process exits with code 0, not nonzero: commander's
`program.help()` on line 106 terminates the process with
`process.exitCode || 0`, which is 0 here, so the `process.exit(1)` on
line 107 never runs. The explicit `process.exit(1)` right after the
`help()` call shows a nonzero exit was intended, as the claim states: the
code, not the claim, is at fault. -/
theorem dispatcher_usage_exits_zero (env : SysEnv) (engine : JSValue → Except String Unit) :
    (generateFromOptions env engine ⟨none, none, none, false, none⟩).engineCalls = [] ∧
    (generateFromOptions env engine ⟨none, none, none, false, none⟩).outcome = .usage ∧
    (generateFromOptions env engine ⟨none, none, none, false, none⟩).outcome.exitCode = 0 :=
  ⟨rfl, rfl, rfl⟩

/-- C5: the result of `loadConfigFile` is independent of the incoming module
cache (the entry for the resolved path is always invalidated before the
`require`), so a second load of the same path after the on-disk module has
changed returns exactly what a fresh process would: no stale cached
evaluation can ever be observed. -/
theorem loadConfigFile_fresh_evaluation (fsExists : String → Bool)
    (disk diskChanged : ModuleDisk) (cache cacheOther : ModuleCache)
    (cwd configPath : String) :
    (loadConfigFile fsExists disk cache cwd configPath).1 =
      (loadConfigFile fsExists disk cacheOther cwd configPath).1 ∧
    (loadConfigFile fsExists diskChanged
        (loadConfigFile fsExists disk cache cwd configPath).2 cwd configPath).1 =
      (loadConfigFile fsExists diskChanged (fun _ => none) cwd configPath).1 := by
  constructor
  · rw [loadConfigFile_fst_eq, loadConfigFile_fst_eq]
  · rw [loadConfigFile_fst_eq, loadConfigFile_fst_eq]

/-- C4 counterexample: a module evaluation error with message "boom" at the
configuration path `/cfg.js` is re-thrown as exactly
"Failed to load configuration file: boom" — the wrapped error carries the
cause message but no part of the failing path, so the wrapper does not
identify the path. -/
theorem loadConfigFile_wrapper_omits_path :
    (loadConfigFile (fun _ => true) (fun _ => .error "boom") (fun _ => none) "/w" "/cfg.js").1
      = .error "Failed to load configuration file: boom" ∧
    strContains "Failed to load configuration file: boom" "/cfg.js" = false ∧
    strContains "Failed to load configuration file: boom" "cfg.js" = false :=
  ⟨rfl, rfl, rfl⟩

/-- C4 (amended): every error raised while evaluating the configuration
module is re-thrown wrapped in the fixed context
"Failed to load configuration file: " followed by the underlying cause's
message — the cause is contained in the wrapper and never swallowed — but
the wrapper itself does not name the failing path. -/
theorem loadConfigFile_wraps_cause (fsExists : String → Bool) (disk : ModuleDisk)
    (cache : ModuleCache) (cwd configPath e : String)
    (hex : fsExists (pathResolve cwd configPath) = true)
    (hdisk : disk (pathResolve cwd configPath) = .error e) :
    (loadConfigFile fsExists disk cache cwd configPath).1 =
      .error ("Failed to load configuration file: " ++ e) ∧
    strContains ("Failed to load configuration file: " ++ e) e = true := by
  refine ⟨?_, strContains_append "Failed to load configuration file: " e⟩
  rw [loadConfigFile_fst_eq]
  exact loadResult_eval_error hex hdisk

theorem loadConfigFile_wraps_cause_witness :
    (loadConfigFile (fun _ => true) (fun _ => .error "boom") (fun _ => none) "/w2" "/cfg2.js").1
      = .error ("Failed to load configuration file: " ++ "boom") ∧
    strContains ("Failed to load configuration file: " ++ "boom") "boom" = true :=
  loadConfigFile_wraps_cause (fun _ => true) (fun _ => .error "boom") (fun _ => none)
    "/w2" "/cfg2.js" "boom" rfl rfl

/-- C6: whenever the configuration module evaluates successfully but its
normalized value lacks a truthy `input` field or a truthy `output` field
(including when both are missing), loading fails and the failure message
contains the required-properties sentence, regardless of what other fields
the module carries. -/
theorem loadConfigFile_requires_input_output (fsExists : String → Bool) (disk : ModuleDisk)
    (cache : ModuleCache) (cwd configPath : String) (m c : JSValue)
    (hex : fsExists (pathResolve cwd configPath) = true)
    (hdisk : disk (pathResolve cwd configPath) = .ok m)
    (hnorm : normalizeModule m = .ok c)
    (hio : jsTruthy (lookupField c "input") = false ∨
           jsTruthy (lookupField c "output") = false) :
    (loadConfigFile fsExists disk cache cwd configPath).1 =
      .error ("Failed to load configuration file: " ++
        "Configuration must include \"input\" and \"output\" properties") ∧
    strContains
      ("Failed to load configuration file: " ++
        "Configuration must include \"input\" and \"output\" properties")
      "Configuration must include \"input\" and \"output\" properties" = true := by
  refine ⟨?_, strContains_append _ _⟩
  rw [loadConfigFile_fst_eq]
  have hchk := checkConfig_missing (normalizeModule_ok_not_nullish hnorm) hio
  unfold loadResult evalAndValidate
  simp [hex, hdisk, hnorm, hchk]

/-- A configuration module exporting neither `input` nor `output`. -/
def demoBadModule : JSValue := .obj (.cons "foo" (.num 1) .nil)

theorem loadConfigFile_requires_input_output_witness :
    (loadConfigFile (fun _ => true) (fun _ => .ok demoBadModule) (fun _ => none) "/w" "/cfg.js").1
      = .error ("Failed to load configuration file: " ++
          "Configuration must include \"input\" and \"output\" properties") ∧
    strContains
      ("Failed to load configuration file: " ++
        "Configuration must include \"input\" and \"output\" properties")
      "Configuration must include \"input\" and \"output\" properties" = true :=
  loadConfigFile_requires_input_output (fun _ => true) (fun _ => .ok demoBadModule)
    (fun _ => none) "/w" "/cfg.js" demoBadModule demoBadModule rfl rfl rfl (Or.inl rfl)

/-- C9: export-shape normalization accepts, in priority order, a truthy
`default` export, then a truthy `config` named export, then the module's own
top-level value. -/
theorem normalizeModule_priority (m : JSValue) :
    (jsTruthy (lookupField m "default") = true →
       normalizeModule m = .ok (lookupField m "default")) ∧
    (jsTruthy (lookupField m "default") = false →
     jsTruthy (lookupField m "config") = true →
       normalizeModule m = .ok (lookupField m "config")) ∧
    (∀ fields, m = .obj fields →
     jsTruthy (lookupField m "default") = false →
     jsTruthy (lookupField m "config") = false →
       normalizeModule m = .ok m) := by
  refine ⟨?_, ?_, ?_⟩
  · intro hd
    cases m with
    | obj fields => simp [normalizeModule, jsGet, hd]
    | undefined => simp [lookupField, jsTruthy] at hd
    | null => simp [lookupField, jsTruthy] at hd
    | bool b => simp [lookupField, jsTruthy] at hd
    | num n => simp [lookupField, jsTruthy] at hd
    | str s => simp [lookupField, jsTruthy] at hd
  · intro hd hc
    cases m with
    | obj fields => simp [normalizeModule, jsGet, hd, hc]
    | undefined => simp [lookupField, jsTruthy] at hc
    | null => simp [lookupField, jsTruthy] at hc
    | bool b => simp [lookupField, jsTruthy] at hc
    | num n => simp [lookupField, jsTruthy] at hc
    | str s => simp [lookupField, jsTruthy] at hc
  · intro fields hm hd hc
    subst hm
    simp [normalizeModule, jsGet, hd, hc]

theorem normalizeModule_priority_witness :
    normalizeModule (.obj (.cons "default" (.str "d") .nil)) = .ok (.str "d") :=
  (normalizeModule_priority (.obj (.cons "default" (.str "d") .nil))).1 rfl

/-- C10: normalization selects by truthiness, not by key presence — a module
object whose `default` export is present but falsy is skipped in favour of
the `config` export when that is truthy, and otherwise the bare module
object is used; the result is always a success, so loading a module object
can only fail in the later input/output validation. -/
theorem normalizeModule_truthiness_selection (fields : JSFields)
    (_hpresent : (JSFields.keys fields).contains "default" = true)
    (hd : jsTruthy (lookupField (.obj fields) "default") = false) :
    normalizeModule (.obj fields) =
      .ok (if jsTruthy (lookupField (.obj fields) "config") = true
           then lookupField (.obj fields) "config"
           else .obj fields) := by
  by_cases hc : jsTruthy (lookupField (.obj fields) "config") = true
  · simp [normalizeModule, jsGet, hd, hc]
  · have hc2 : jsTruthy (lookupField (.obj fields) "config") = false :=
      eq_false_of_ne_true hc
    simp [normalizeModule, jsGet, hd, hc2]

/-- A module whose `default` export is present but `null` and whose `config`
export is the falsy number `0`. -/
def demoFalsyExports : JSFields :=
  .cons "default" .null (.cons "config" (.num 0) (.cons "input" (.str "x") .nil))

theorem normalizeModule_truthiness_selection_witness :
    normalizeModule (.obj demoFalsyExports) = .ok (.obj demoFalsyExports) :=
  normalizeModule_truthiness_selection demoFalsyExports rfl rfl

/-- C8: in the flags-only branch the merged request has `generateServices`
equal to the negation of the types-only flag, `enumStyle` fixed to `"enum"`,
`generateEnumBasedOnDescription` fixed to `true`, `output` defaulting to the
fixed directory `"./src/generated"` when the flag is absent, and `dateType`
defaulting to `"Date"` when absent; in particular, for the flags
`{config: undefined, input: "./spec.json", typesOnly: true}` the request has
`generateServices` equal to `false` and the default output directory. -/
theorem mergeFlags_defaults (opts : CliOptions) :
    lookupField (lookupField (mergeFlags opts) "options") "generateServices"
      = .bool (! opts.typesOnly) ∧
    lookupField (lookupField (mergeFlags opts) "options") "enumStyle" = .str "enum" ∧
    lookupField (lookupField (mergeFlags opts) "options") "generateEnumBasedOnDescription"
      = .bool true ∧
    (opts.output = none → lookupField (mergeFlags opts) "output" = .str "./src/generated") ∧
    (opts.dateType = none →
      lookupField (lookupField (mergeFlags opts) "options") "dateType" = .str "Date") ∧
    lookupField (lookupField (mergeFlags demoFlagsOpts) "options") "generateServices"
      = .bool false ∧
    lookupField (mergeFlags demoFlagsOpts) "output" = .str "./src/generated" := by
  refine ⟨rfl, rfl, rfl, ?_, ?_, rfl, rfl⟩
  · intro h
    simp [mergeFlags, lookupField, JSFields.find?, jsStrOr, h]
  · intro h
    simp [mergeFlags, lookupField, JSFields.find?, jsStrOr, h]

theorem mergeFlags_defaults_witness :
    lookupField (mergeFlags demoFlagsOpts) "output" = .str "./src/generated" :=
  (mergeFlags_defaults demoFlagsOpts).2.2.2.1 rfl

theorem jsStrOr_not_undefined (o : Option String) (d : String) :
    isUndefined (jsStrOr o d) = false := by
  cases o with
  | none => rfl
  | some s =>
    by_cases hs : s.isEmpty = true
    · simp [jsStrOr, hs, isUndefined]
    · simp [jsStrOr, eq_false_of_ne_true hs, isUndefined]

theorem jsStrOr_truthy (o : Option String) (d : String) (hd : d.isEmpty = false) :
    jsTruthy (jsStrOr o d) = true := by
  cases o with
  | none => simp [jsStrOr, jsTruthy, hd]
  | some s =>
    by_cases hs : s.isEmpty = true
    · simp [jsStrOr, hs, jsTruthy, hd]
    · simp [jsStrOr, eq_false_of_ne_true hs, jsTruthy]

theorem mergeFlags_lookup_input (opts : CliOptions) :
    lookupField (mergeFlags opts) "input" = jsOfStrOpt opts.input := rfl

theorem mergeFlags_lookup_output (opts : CliOptions) :
    lookupField (mergeFlags opts) "output" = jsStrOr opts.output "./src/generated" := rfl

theorem mergeFlags_input_truthy {opts : CliOptions} (hin : optTruthy opts.input = true) :
    jsTruthy (lookupField (mergeFlags opts) "input") = true := by
  rw [mergeFlags_lookup_input]
  cases hopt : opts.input with
  | none => rw [hopt] at hin; simp [optTruthy] at hin
  | some s =>
    rw [hopt] at hin
    simpa [jsOfStrOpt, jsTruthy, optTruthy] using hin

theorem mergeFlags_output_truthy (opts : CliOptions) :
    jsTruthy (lookupField (mergeFlags opts) "output") = true := by
  rw [mergeFlags_lookup_output]
  exact jsStrOr_truthy opts.output "./src/generated" rfl

theorem isUndefined_str (s : String) : isUndefined (.str s) = false := rfl

theorem isUndefined_bool (b : Bool) : isUndefined (.bool b) = false := rfl

theorem mergeFlags_fullyPopulated {opts : CliOptions} {s : String}
    (hin : opts.input = some s) :
    fullyPopulated (mergeFlags opts) = true := by
  simp [fullyPopulated, hasValue, mergeFlags, lookupField, JSFields.find?, jsOfStrOpt, hin,
        jsStrOr_not_undefined, isUndefined_str, isUndefined_bool]

/-- C3 counterexample: with the configuration file `/cfg.js` exporting only
`input` and `output` — a configuration the loader accepts — the engine is
invoked with exactly that object, which carries none of the four option
fields: the request handed over in the configuration-file branch is not
fully populated. -/
theorem config_branch_partial_request :
    (generateFromOptions demoEnv demoEngine demoCfgOpts).engineCalls = [demoCfgModule] ∧
    fullyPopulated demoCfgModule = false :=
  ⟨rfl, rfl⟩

/-- C3 (amended): every request actually handed to the generation engine
carries a truthy `input` and a truthy `output`; when it was built by the
flags-only branch it is moreover fully populated (all four option fields
present). A request passed through from a configuration file is only
guaranteed the `input` and `output` fields. -/
theorem engine_requests_core_fields (env : SysEnv) (engine : JSValue → Except String Unit)
    (opts : CliOptions) (c : JSValue)
    (hc : c ∈ (generateFromOptions env engine opts).engineCalls) :
    jsTruthy (lookupField c "input") = true ∧
    jsTruthy (lookupField c "output") = true ∧
    (optTruthy opts.config = false → fullyPopulated c = true) := by
  unfold generateFromOptions at hc
  by_cases hcfg : optTruthy opts.config = true
  · rw [hcfg, if_pos rfl] at hc
    unfold runConfigBranch at hc
    split at hc
    · simp at hc
    · rename_i config cache2 hload
      have h1 : (loadConfigFile env.fsExists env.disk env.cache env.cwd
          (opts.config.getD "")).1 = .ok config := by rw [hload]
      rw [loadConfigFile_fst_eq] at h1
      have htr := loadResult_ok_truthy h1
      split at hc
      · simp at hc
      · split at hc
        · simp at hc
          subst hc
          exact ⟨htr.1, htr.2, fun hfalse => absurd hcfg (by simp [hfalse])⟩
        · simp at hc
          subst hc
          exact ⟨htr.1, htr.2, fun hfalse => absurd hcfg (by simp [hfalse])⟩
  · have hcfg2 : optTruthy opts.config = false := eq_false_of_ne_true hcfg
    rw [hcfg2, if_neg (by simp)] at hc
    by_cases hin : optTruthy opts.input = true
    · rw [hin, if_pos rfl] at hc
      unfold runFlagsBranch at hc
      obtain ⟨s, hs⟩ : ∃ s, opts.input = some s := by
        cases hopt : opts.input with
        | none => rw [hopt] at hin; simp [optTruthy] at hin
        | some s => exact ⟨s, rfl⟩
      split at hc
      · simp at hc
      · split at hc
        · simp at hc
          subst hc
          exact ⟨mergeFlags_input_truthy hin, mergeFlags_output_truthy opts,
                 fun _ => mergeFlags_fullyPopulated hs⟩
        · simp at hc
          subst hc
          exact ⟨mergeFlags_input_truthy hin, mergeFlags_output_truthy opts,
                 fun _ => mergeFlags_fullyPopulated hs⟩
    · have hin2 : optTruthy opts.input = false := eq_false_of_ne_true hin
      rw [hin2, if_neg (by simp)] at hc
      simp at hc

theorem engine_requests_core_fields_witness :
    jsTruthy (lookupField (mergeFlags demoFlagsOpts) "input") = true ∧
    jsTruthy (lookupField (mergeFlags demoFlagsOpts) "output") = true ∧
    (optTruthy demoFlagsOpts.config = false → fullyPopulated (mergeFlags demoFlagsOpts) = true) :=
  engine_requests_core_fields demoFlagsEnv demoEngine demoFlagsOpts (mergeFlags demoFlagsOpts)
    (by
      have h : (generateFromOptions demoFlagsEnv demoEngine demoFlagsOpts).engineCalls
          = [mergeFlags demoFlagsOpts] := rfl
      rw [h]
      exact List.mem_singleton.mpr rfl)
